import Mathlib

/-!
A shallow embedding of daptin's authorization / relation-resolution core
(package `resource`: permission extraction and evaluation, reference-id
translation, relation expansion, administrator bootstrap; package `server`:
`trimToLimit`), together with proofs about the embedded operations.

Modelling conventions:
* Go `interface{}` values scanned from the database are modelled by `GoValue`.
  `float64` values are modelled by the integer they truncate to under Go's
  `int64(f)` conversion (only integral floats occur on the permission paths).
* Go runtime panics (failed type assertions such as `v.(string)`, nil-map
  dereferences such as `dr.Cruds[t].model` for a missing key, assignment to a
  nil map) are modelled by `Option`: a function returns `none` exactly when
  the Go original panics.
* The SQL store is modelled by `DbResource.tables`, a per-table list of rows;
  `select ... where col = v` is a first-match/filter over that list with SQL
  equality (NULL matches nothing).  Join queries, JSON decoding, file reads
  and timestamp parsing are external capabilities of the surrounding system
  and are abstracted as function-valued fields of `DbResource`.
-/

/-- Primitive values inside a JSON-decoded file descriptor
(`[]map[string]interface{}` in `ResultToArrayOfMap`'s cloud_store branch). -/
inductive Prim where
  | pNull
  | pInt (i : Int)
  | pString (s : String)
  | pBool (b : Bool)
deriving DecidableEq

/-- A JSON file descriptor: a Go `map[string]interface{}` holding primitives. -/
abbrev FileRow := List (String × Prim)

/-- A Go `interface{}` value held in a scanned database row. -/
inductive GoValue where
  | vNull
  | vInt (i : Int)
  /-- A `float64` that is integral; Go's `int64(f)` truncation is identity here. -/
  | vFloat (f : Int)
  | vString (s : String)
  | vBool (b : Bool)
  /-- A parsed `time.Time` (produced by the datetime coercion), shown by its layout string. -/
  | vTime (t : String)
  /-- A `[]map[string]interface{}` file list stored back into a row by the cloud_store branch. -/
  | vObjList (files : List FileRow)
deriving DecidableEq

/-- A Go `map[string]interface{}` database row, as an association list. -/
abbrev GoRow := List (String × GoValue)

/-- Lookup in an association list (Go `v, ok := m[k]`): `none` means the key is absent. -/
def alistGet? {β : Type} (l : List (String × β)) (k : String) : Option β :=
  (l.find? (fun p => p.1 == k)).map (fun p => p.2)

/-- Go map update `m[k] = v`: replace the value of an existing key, else append. -/
def alistSet {β : Type} (l : List (String × β)) (k : String) (v : β) : List (String × β) :=
  if (l.find? (fun p => p.1 == k)).isSome then
    l.map (fun p => if p.1 == k then (p.1, v) else p)
  else
    l ++ [(k, v)]

/-- Go map read `m[k]`: a missing key reads as `nil`. -/
def GoRow.getVal (r : GoRow) (k : String) : GoValue :=
  (alistGet? r k).getD GoValue.vNull

def GoRow.set (r : GoRow) (k : String) (v : GoValue) : GoRow := alistSet r k v

def FileRow.getPrim (r : FileRow) (k : String) : Prim :=
  (alistGet? r k).getD Prim.pNull

def FileRow.set (r : FileRow) (k : String) (v : Prim) : FileRow := alistSet r k v

/-- Go type assertion `v.(string)`: `none` models the panic on a non-string. -/
def GoValue.asString? : GoValue → Option String
  | GoValue.vString s => some s
  | _ => none

/-- Go soft type assertion `s, _ := v.(string)`: zero value on failure. -/
def GoValue.asStringD (v : GoValue) : String := (v.asString?).getD ""

/-- Go type assertion `v.(int64)`: `none` models the panic / `ok = false` case. -/
def GoValue.asInt? : GoValue → Option Int
  | GoValue.vInt i => some i
  | _ => none

/-- Go `v == nil` for an `interface{}` read from a map. -/
def GoValue.isNull : GoValue → Bool
  | GoValue.vNull => true
  | _ => false

def Prim.asString? : Prim → Option String
  | Prim.pString s => some s
  | _ => none

/-- Go `==` on two primitive `interface{}` values (used for `val == ""`). -/
def GoValue.beqPrim : GoValue → GoValue → Bool
  | GoValue.vNull, GoValue.vNull => true
  | GoValue.vInt a, GoValue.vInt b => a == b
  | GoValue.vFloat a, GoValue.vFloat b => a == b
  | GoValue.vString a, GoValue.vString b => a == b
  | GoValue.vBool a, GoValue.vBool b => a == b
  | GoValue.vTime a, GoValue.vTime b => a == b
  | _, _ => false

/-- SQL equality used by `where col = ?`: NULL (and non-primitive values) match nothing. -/
def GoValue.sqlEq : GoValue → GoValue → Bool
  | GoValue.vInt a, GoValue.vInt b => a == b
  | GoValue.vFloat a, GoValue.vFloat b => a == b
  | GoValue.vString a, GoValue.vString b => a == b
  | GoValue.vBool a, GoValue.vBool b => a == b
  | _, _ => false

/-- database/sql `Scan` into a `*string`: strings pass through, numbers are formatted,
NULL and other values produce a scan error. -/
def GoValue.asScanString? : GoValue → Option String
  | GoValue.vString s => some s
  | GoValue.vInt i => some (toString i)
  | GoValue.vFloat f => some (toString f)
  | _ => none

/-- database/sql `Scan` into a `*int64` (or `*uint64`): int64 passes through, an
integral float converts, a string is parsed fully or errors, NULL errors. -/
def GoValue.asScanInt? : GoValue → Option Int
  | GoValue.vInt i => some i
  | GoValue.vFloat f => some f
  | GoValue.vString s => s.toInt?
  | _ => none

/-- Whether the character list `hay` starts with `pat`. -/
def leadsWith : List Char → List Char → Bool
  | [], _ => true
  | _ :: _, [] => false
  | a :: as, b :: bs => a == b && leadsWith as bs

/-- Whether `pat` occurs as a contiguous run inside `hay`
(Go `strings.Index(hay, pat) != -1`). -/
def hasSub (hay pat : List Char) : Bool :=
  match hay with
  | [] => pat.isEmpty
  | _ :: t => leadsWith pat hay || hasSub t pat

/-- Whether the character list `hay` ends with `pat` (SQL `like '%pat'`). -/
def trailsWith (hay pat : List Char) : Bool :=
  leadsWith pat.reverse hay.reverse

/-- Accumulate the decimal value of a digit run; `none` on the first non-digit
(Go `strconv.ParseUint`'s digit loop, with the overflow cutoff applied by the caller). -/
def digitsValAux : List Char → Nat → Option Nat
  | [], acc => some acc
  | c :: cs, acc =>
    if c.isDigit then digitsValAux cs (acc * 10 + (c.toNat - 48)) else none

/-- Decimal value of a non-empty all-digit run, `none` otherwise. -/
def digitsVal? : List Char → Option Nat
  | [] => none
  | c :: cs => digitsValAux (c :: cs) 0

/-- Go `strconv.ParseInt(s, 10, 64)` returning (value, errored):
syntax errors return value 0, out-of-range values return the clamped
`2^63 - 1` / `-2^63`, both with the error flag set. -/
def goParseInt10 (s : String) : Int × Bool :=
  match s.data with
  | [] => (0, true)
  | c :: rest =>
    let p : Bool × List Char :=
      if c == '-' then (true, rest)
      else if c == '+' then (false, rest)
      else (false, c :: rest)
    match digitsVal? p.2 with
    | none => (0, true)
    | some n =>
      if !p.1 && n ≥ 2 ^ 63 then ((2 : Int) ^ 63 - 1, true)
      else if p.1 && n > 2 ^ 63 then (-((2 : Int) ^ 63), true)
      else ((if p.1 then -(n : Int) else (n : Int)), false)

/-- Whether `s` has the shape Go's base-10 `ParseInt` accepts syntactically:
an optional sign followed by a non-empty digit run. -/
def decimalShape (s : String) : Bool :=
  match s.data with
  | [] => false
  | c :: rest =>
    let ds := if c == '-' || c == '+' then rest else c :: rest
    !ds.isEmpty && ds.all Char.isDigit

/-- auth.GroupPermission: one group membership row together with the bitmask
stored on the join row (source: server/auth, used throughout part_000). -/
structure GroupPermission where
  GroupReferenceId : String
  ObjectReferenceId : String
  RelationReferenceId : String
  Permission : Int
deriving DecidableEq

/-- PermissionInstance: owner, applicable group grants and the row bitmask.
The Go zero value is `{UserId := "", UserGroupId := [], Permission := 0}`. -/
structure PermissionInstance where
  UserId : String
  UserGroupId : List GroupPermission
  Permission : Int
deriving DecidableEq

/-- api2go.ForeignKeyData of a column (`DataSource`, `Namespace`, `KeyName`). -/
structure ForeignKeyData where
  DataSource : String
  Namespace : String
  KeyName : String
deriving DecidableEq

/-- api2go.ColumnInfo, restricted to the fields `ResultToArrayOfMap` reads. -/
structure ColumnInfo where
  ColumnName : String
  ColumnType : String
  IsForeignKey : Bool
  ForeignKeyData : ForeignKeyData
deriving DecidableEq

/-- The per-table model metadata read through `dr.Cruds[name].model`. -/
structure CrudModel where
  /-- model.HasColumn(USER_ACCOUNT_ID_COLUMN) -/
  hasUserAccountColumn : Bool
  /-- model.HasMany("usergroup") -/
  hasManyUsergroup : Bool
  /-- model.GetDefaultPermission() -/
  defaultPermission : Int
  /-- model.GetColumnMap() -/
  columnMap : List (String × ColumnInfo)

/-- The DbResource receiver: the SQL store plus the external capabilities the
embedded functions consume.  Join queries, JSON decoding, local file reads and
timestamp parsing run outside this package and are abstracted as functions. -/
structure DbResource where
  /-- Rows of each table, in select order. -/
  tables : String → List GoRow
  /-- dr.Cruds (nil-map misses modelled by `none`). -/
  cruds : String → Option CrudModel
  /-- The key set of dr.Cruds, for range iteration in `BecomeAdmin`. -/
  crudNames : List String
  /-- Scan results of `GetObjectUserGroupsByWhere`'s generated join query,
  keyed by (object type, filter column, filter value). -/
  groupsByWhere : String → String → GoValue → List GroupPermission
  /-- Scan results of `GetObjectGroupsByObjectId`'s generated join query for a
  non-usergroup object (GroupReferenceId, RelationReferenceId, Permission);
  ObjectReferenceId is overwritten by the caller. -/
  objectGroups : String → Int → List GroupPermission
  /-- encoding/json `Unmarshal` of a column value into `[]map[string]interface{}`;
  `none` is a decoding error. -/
  jsonDecodeFileList : String → Option (List FileRow)
  /-- `GetFileFromLocalCloudStore(tableName, columnName, files)`: hydrate file
  descriptors from the local sync path; `none` is an error (for example, not a
  synced folder). -/
  localStoreFiles : String → String → List FileRow → Option (List FileRow)
  /-- fieldtypes.GetTime with fieldtypes.GetDateTime as fallback; `none` when
  both layouts fail. -/
  parseTime : String → Option String

/-- First row of `select * from t where col = v` (QueryRowx semantics). -/
def firstRowWhere (dr : DbResource) (t col : String) (v : GoValue) : Option GoRow :=
  (dr.tables t).find? (fun r => GoValue.sqlEq (r.getVal col) v)

/-- All rows of `select * from t where col = v` (Queryx semantics). -/
def rowsWhere (dr : DbResource) (t col : String) (v : GoValue) : List GoRow :=
  (dr.tables t).filter (fun r => GoValue.sqlEq (r.getVal col) v)

/-- GetIdToReferenceId: `select reference_id from t where id = ?`, scanned into a
string.  `none` is the scan/lookup error returned to the caller. -/
def DbResource.GetIdToReferenceId (dr : DbResource) (typeName : String) (id : Int) :
    Option String :=
  (firstRowWhere dr typeName "id" (GoValue.vInt id)).bind
    (fun r => (r.getVal "reference_id").asScanString?)

/-- GetReferenceIdToId: `select id from t where reference_id = ?`, scanned into an
int64.  `none` is the scan/lookup error returned to the caller. -/
def DbResource.GetReferenceIdToId (dr : DbResource) (typeName : String)
    (referenceId : String) : Option Int :=
  (firstRowWhere dr typeName "reference_id" (GoValue.vString referenceId)).bind
    (fun r => (r.getVal "id").asScanInt?)

/-- Modelled from the spec: the capability bit layout of auth.AuthPermission
(server/auth is not under src/).  Three scopes — Guest, User, Group — each with
the seven bits Peek, Read, Create, Update, Delete, Execute, Refer; Guest holds
bits 0-6, User bits 7-13, Group bits 14-20. -/
def GuestPeek : Int := 1
/-- Guest Read capability bit. -/
def GuestRead : Int := 2
/-- Guest Create capability bit. -/
def GuestCreate : Int := 4
/-- Guest Execute capability bit. -/
def GuestExecute : Int := 2 ^ 5
/-- User Read capability bit. -/
def UserRead : Int := 2 ^ 8
/-- User Create capability bit. -/
def UserCreate : Int := 2 ^ 9
/-- User Execute capability bit. -/
def UserExecute : Int := 2 ^ 12
/-- Group Read capability bit. -/
def GroupRead : Int := 2 ^ 15
/-- Group Create capability bit. -/
def GroupCreate : Int := 2 ^ 16
/-- Group Execute capability bit. -/
def GroupExecute : Int := 2 ^ 19
/-- Group Refer capability bit. -/
def GroupRefer : Int := 2 ^ 20
/-- Group Create|Read|Update|Delete, as used by `BecomeAdmin`. -/
def GroupCRUD : Int := 2 ^ 16 + 2 ^ 15 + 2 ^ 17 + 2 ^ 18
/-- Modelled from the spec: auth.DEFAULT_PERMISSION, the system default bitmask
applied by `BecomeAdmin`; its exact value is not given by the spec and no proof
depends on it. -/
def DEFAULT_PERMISSION : Int := GuestPeek + GuestExecute + UserRead + UserExecute + GroupCRUD

/-- Whether bit `b` is set in the (non-negative) bitmask `p`. -/
def hasBit (p : Int) (b : Nat) : Bool := p.toNat.testBit b

/-- Modelled from the spec: PermissionInstance.CanExecute from server/auth (not
under src/).  Evaluation ORs the three tiers: the Guest Execute bit of the row
mask, the User Execute bit when the caller is the owner, and the Group Execute
bit of any of the object's group grants whose group the caller belongs to. -/
def PermissionInstance.CanExecute (perm : PermissionInstance) (userRefId : String)
    (groups : List GroupPermission) : Bool :=
  hasBit perm.Permission 5
  || (userRefId == perm.UserId && hasBit perm.Permission 12)
  || perm.UserGroupId.any (fun og =>
       groups.any (fun cg => cg.GroupReferenceId == og.GroupReferenceId)
       && hasBit og.Permission 19)

/-- trimToLimit from the server package: trim surrounding whitespace, but when
the original string is longer than the limit return its untrimmed prefix.
Strings are modelled as character lists; Go's `len`/slicing act on them. -/
def goIsSpace (c : Char) : Bool :=
  c == ' ' || c == '\t' || c == '\n' || (c == Char.ofNat 11) || (c == Char.ofNat 12)
  || c == '\r' || (c == Char.ofNat 0x85) || (c == Char.ofNat 0xA0)

/-- Go strings.TrimSpace: drop leading and trailing whitespace. -/
def goTrimSpace (s : List Char) : List Char :=
  ((s.dropWhile goIsSpace).reverse.dropWhile goIsSpace).reverse

/-- trimToLimit(str, limit) from src/unnamed/part_001 lines 71-77. -/
def trimToLimit (str : List Char) (limit : Nat) : List Char :=
  let ret := goTrimSpace str
  if str.length > limit then str.take limit else ret

/-- GetObjectGroupsByObjectId (part_000 lines 342-386).  `none` models the
nil-map panic on `dr.Cruds["usergroup"]` when that crud is missing. -/
def DbResource.GetObjectGroupsByObjectId (dr : DbResource) (objType : String)
    (objectId : Int) : Option (List GroupPermission) :=
  let refIdRes := dr.GetIdToReferenceId objType objectId
  if objType == "usergroup" then
    match refIdRes with
    | none => some []
    | some refId => do
      let crud ← dr.cruds "usergroup"
      pure [{ GroupReferenceId := refId, ObjectReferenceId := refId,
              RelationReferenceId := refId, Permission := crud.defaultPermission }]
  else
    -- the generated join query; scan rows get ObjectReferenceId overwritten with
    -- the translated reference id, or "" when that translation errored
    some ((dr.objectGroups objType objectId).map
      (fun g => { g with ObjectReferenceId := refIdRes.getD "" }))

/-- GetObjectPermissionByReferenceId (part_000 lines 146-200).  A query miss
returns the zero PermissionInstance; a found row whose id is not an int64
returns early; `none` models the panic on a non-int64 permission value. -/
def DbResource.GetObjectPermissionByReferenceId (dr : DbResource)
    (objectType referenceId : String) : Option PermissionInstance :=
  match firstRowWhere dr objectType "reference_id" (GoValue.vString referenceId) with
  | none => some { UserId := "", UserGroupId := [], Permission := 0 }
  | some m => do
    -- for "usergroup" the select omits USER_ACCOUNT_ID_COLUMN
    let uidVal := if objectType == "usergroup" then GoValue.vNull
                  else m.getVal "user_account_id"
    let uid ←
      if !uidVal.isNull then do
        let i ← uidVal.asInt?
        match dr.GetIdToReferenceId "user_account" i with
        | some u => pure u
        | none => pure ""
      else pure ""
    match (m.getVal "id").asInt? with
    | none => some { UserId := uid, UserGroupId := [], Permission := 0 }
    | some i => do
      let groups ← dr.GetObjectGroupsByObjectId objectType i
      let p ← (m.getVal "permission").asInt?
      pure { UserId := uid, UserGroupId := groups, Permission := p }

/-- GetObjectPermissionByWhereClause (part_000 lines 262-295).  A query miss
returns the zero PermissionInstance; on a found row the id and permission
type assertions are unguarded (`none` models their panic). -/
def DbResource.GetObjectPermissionByWhereClause (dr : DbResource)
    (objectType colName colValue : String) : Option PermissionInstance :=
  match firstRowWhere dr objectType colName (GoValue.vString colValue) with
  | none => some { UserId := "", UserGroupId := [], Permission := 0 }
  | some m => do
    let uid ←
      if !(m.getVal "user_account_id").isNull then do
        let i ← (m.getVal "user_account_id").asInt?
        match dr.GetIdToReferenceId "user_account" i with
        | some u => pure u
        | none => pure ""
      else pure ""
    let i ← (m.getVal "id").asInt?
    let groups ← dr.GetObjectGroupsByObjectId objectType i
    let p ← (m.getVal "permission").asInt?
    pure { UserId := uid, UserGroupId := groups, Permission := p }

/-- IsUserActionAllowed (part_000 lines 31-42): Execute must hold on both the
type's permission instance and the action's own permission instance. -/
def DbResource.IsUserActionAllowed (dr : DbResource) (userReferenceId : String)
    (userGroups : List GroupPermission) (typeName actionName : String) : Option Bool := do
  let permission ← dr.GetObjectPermissionByWhereClause "world" "table_name" typeName
  let actionPermission ← dr.GetObjectPermissionByWhereClause "action" "action_name" actionName
  pure (permission.CanExecute userReferenceId userGroups
        && actionPermission.CanExecute userReferenceId userGroups)

/-- Column metadata lookup `columnInfo, ok := columnMap[key]`. -/
def lookupCol (cmap : List (String × ColumnInfo)) (k : String) : Option ColumnInfo :=
  alistGet? cmap k

/-- View a file-descriptor primitive as a generic row value (in Go both live in
the same `interface{}` universe). -/
def Prim.toGoValue : Prim → GoValue
  | Prim.pNull => GoValue.vNull
  | Prim.pInt i => GoValue.vInt i
  | Prim.pString s => GoValue.vString s
  | Prim.pBool b => GoValue.vBool b

/-- View a file descriptor as a generic row, as when it is appended to a row's
include list. -/
def FileRow.toGoRow (f : FileRow) : GoRow :=
  f.map (fun p => (p.1, p.2.toGoValue))

/-- The `file["src"] = file["name"].(string)` loop of the cloud_store branch:
`none` models the panic when a descriptor has no string name. -/
def setFileSrc (files : List FileRow) : Option (List FileRow) :=
  files.mapM (fun f => ((f.getPrim "name").asString?).map
    (fun n => f.set "src" (Prim.pString n)))

/-- Go `includedRelationMap != nil && (includedRelationMap[name] || includedRelationMap["*"])`.
`none` is a nil map. -/
def includeHas (includedRelationMap : Option (List String)) (name : String) : Bool :=
  match includedRelationMap with
  | none => false
  | some l => l.contains name || l.contains "*"

/-- One iteration of `ResultToArrayOfMap`'s per-row column loop (part_000 lines
1233-1340) on the entry `(key, val)`: datetime coercion, then foreign-key
resolution for the `self` and `cloud_store` data sources.  The accumulator is
the (mutated) row and its include list; `fetch` stands for `dr.GetIdToObject`
(returning `some none` when that call returns a nil map, on which the
`obj["__type"] = namespace` assignment panics). -/
def processEntry (dr : DbResource) (selfName : String)
    (fetch : String → Int → Option (Option GoRow))
    (cmap : List (String × ColumnInfo)) (includedRelationMap : Option (List String))
    (acc : GoRow × List GoRow) (key : String) (val : GoValue) :
    Option (GoRow × List GoRow) :=
  match lookupCol cmap key with
  | none => some acc
  | some columnInfo =>
    let row := acc.1
    let localInclude := acc.2
    let row :=
      if !val.isNull && columnInfo.ColumnType == "datetime" then
        match val with
        | GoValue.vString s =>
          match dr.parseTime s with
          | some t => row.set key (GoValue.vTime t)
          | none => row.set key GoValue.vNull
        | _ => row
      else row
    if !columnInfo.IsForeignKey then some (row, localInclude)
    else if GoValue.beqPrim val (GoValue.vString "") || val.isNull then some (row, localInclude)
    else
      let ns := columnInfo.ForeignKeyData.Namespace
      if columnInfo.ForeignKeyData.DataSource == "self" then
        let refInt? : Option Int :=
          match val with
          | GoValue.vInt i => some i
          | v => (v.asString?).map (fun s => (goParseInt10 s).1)
        match refInt? with
        | none => none
        | some referenceIdInt =>
          -- objMap is created empty and never written in the source, so the
          -- cache lookup on it always misses
          match dr.GetIdToReferenceId ns referenceIdInt with
          | none => some (row, localInclude)
          | some refId =>
            let row := row.set key (GoValue.vString refId)
            if includeHas includedRelationMap ns then
              match fetch ns referenceIdInt with
              | some (some obj) =>
                some (row, localInclude ++ [obj.set "__type" (GoValue.vString ns)])
              | _ => none
            else some (row, localInclude)
      else if columnInfo.ForeignKeyData.DataSource == "cloud_store" then
        match val.asString? with
        | none => none
        | some referenceStorageInformation =>
          match dr.jsonDecodeFileList referenceStorageInformation with
          | none => some (row, localInclude)
          | some foreignFilesList =>
            match setFileSrc foreignFilesList with
            | none => none
            | some files =>
              let row := row.set key (GoValue.vObjList files)
              if includeHas includedRelationMap columnInfo.ColumnName then
                match dr.localStoreFiles selfName columnInfo.ColumnName files with
                | none => some (row.set key (GoValue.vObjList []), localInclude)
                | some resolved =>
                  let tagged := resolved.map
                    (fun f => f.set "__type" (Prim.pString columnInfo.ColumnType))
                  some (row.set key (GoValue.vObjList tagged),
                        localInclude ++ tagged.map FileRow.toGoRow)
              else some (row, localInclude)
      else some (row, localInclude)

/-- The `for key, val := range row` loop: process each original entry in turn,
threading the mutated row and include list.  Iteration order is the entry
order of the association list (Go map order is unspecified). -/
def processEntries (dr : DbResource) (selfName : String)
    (fetch : String → Int → Option (Option GoRow))
    (cmap : List (String × ColumnInfo)) (includedRelationMap : Option (List String))
    (entries : List (String × GoValue)) (acc : GoRow × List GoRow) :
    Option (GoRow × List GoRow) :=
  match entries with
  | [] => some acc
  | p :: rest =>
    match processEntry dr selfName fetch cmap includedRelationMap acc p.1 p.2 with
    | none => none
    | some acc2 => processEntries dr selfName fetch cmap includedRelationMap rest acc2

/-- RowsToMap (part_000 lines 1188-1210): tag every scanned row with its type. -/
def RowsToMap (rows : List GoRow) (typeName : String) : List GoRow :=
  rows.map (fun r => r.set "__type" (GoValue.vString typeName))

/-- The body of ResultToArrayOfMap (part_000 lines 1218-1347), parameterized by
the `GetIdToObject` capability so the bounded recursion (an included object is
fetched with a nil include map, which performs no further fetches) stays
structural. -/
def resultToArrayOfMapCore (dr : DbResource) (selfName : String)
    (fetch : String → Int → Option (Option GoRow))
    (cmap : List (String × ColumnInfo)) (includedRelationMap : Option (List String))
    (rows : List GoRow) : Option (List GoRow × List (List GoRow)) :=
  let responseArray := RowsToMap rows selfName
  match responseArray.mapM (fun row =>
      processEntries dr selfName fetch cmap includedRelationMap row (row, [])) with
  | none => none
  | some results => some (results.map (fun x => x.1), results.map (fun x => x.2))

/-- GetIdToObject (part_000 lines 895-916): fetch a row by internal id and run
it through ResultToArrayOfMap with a nil include map.  The outer `Option` is a
propagated panic (including the nil-map dereference on a missing crud); the
inner `Option` is the returned row, `none` when the query found nothing. -/
def DbResource.GetIdToObject (dr : DbResource) (selfName typeName : String) (id : Int) :
    Option (Option GoRow) :=
  match dr.cruds typeName with
  | none => none
  | some crud =>
    match resultToArrayOfMapCore dr selfName (fun _ _ => none) crud.columnMap none
        (rowsWhere dr typeName "id" (GoValue.vInt id)) with
    | none => none
    | some (m, _) => some m.head?

/-- ResultToArrayOfMap (part_000 lines 1218-1347), with `dr.GetIdToObject` as
the include fetcher.  `selfName` is `dr.model.GetName()`. -/
def DbResource.ResultToArrayOfMap (dr : DbResource) (selfName : String)
    (cmap : List (String × ColumnInfo)) (includedRelationMap : Option (List String))
    (rows : List GoRow) : Option (List GoRow × List (List GoRow)) :=
  resultToArrayOfMapCore dr selfName (dr.GetIdToObject selfName) cmap
    includedRelationMap rows

/-- GetReferenceIdToObject (part_000 lines 1046-1072): fetch a row by reference
id through the same pipeline (nil include map).  Outer `Option` is a panic,
inner `none` the "no such object" error result. -/
def DbResource.GetReferenceIdToObject (dr : DbResource) (selfName typeName : String)
    (referenceId : String) : Option (Option GoRow) :=
  match dr.cruds typeName with
  | none => none
  | some crud =>
    match resultToArrayOfMapCore dr selfName (fun _ _ => none) crud.columnMap none
        (rowsWhere dr typeName "reference_id" (GoValue.vString referenceId)) with
    | none => none
    | some (m, _) => some m.head?

/-- The three-way permission decode of GetRowPermission (part_000 lines
710-728): an int64 is used directly, a float64 is truncated, anything else is
asserted to be a string and parsed with strconv.ParseInt whose value is used
even when parsing errored (0 on syntax error, clamped on range error).
`none` models the panic of the string assertion on other types. -/
def parsePermissionValue : GoValue → Option Int
  | GoValue.vInt i => some i
  | GoValue.vFloat f => some f
  | GoValue.vString s => some (goParseInt10 s).1
  | _ => none

/-- The reference-id value GetRowPermission works with: the reference_id entry
when the key is present, else the id entry (part_000 lines 654-657). -/
def refIdOf (row : GoRow) : GoValue :=
  match alistGet? row "reference_id" with
  | some v => v
  | none => row.getVal "id"

/-- GetRowPermission (part_000 lines 652-735).  `selfName` is the receiver's
`dr.model` name, used only to tag the owner re-fetch.  Note the source
reassigns `row` on the owner re-fetch path, so the permission column is then
read from the re-fetched row. -/
def DbResource.GetRowPermission (dr : DbResource) (selfName : String) (row0 : GoRow) :
    Option PermissionInstance := do
  let refId : GoValue := refIdOf row0
  let rowType ← (row0.getVal "__type").asString?
  let ownerAndRow ←
    if rowType != "usergroup" then
      if !(row0.getVal "user_account_id").isNull then
        pure ((row0.getVal "user_account_id").asStringD, row0)
      else do
        let rid ← refId.asString?
        let fetched ← dr.GetReferenceIdToObject selfName rowType rid
        let row1 : GoRow := fetched.getD []
        let u := row1.getVal "user_account_id"
        pure (if !u.isNull then u.asStringD else "", row1)
    else pure ("", row0)
  let userId := ownerAndRow.1
  let row1 := ownerAndRow.2
  let userGroupId ←
    if !(hasSub rowType.data "_has_".data) then do
      let crud ← dr.cruds rowType
      if crud.hasManyUsergroup then do
        let rid ← refId.asString?
        pure (dr.groupsByWhere rowType "reference_id" (GoValue.vString rid))
      else if rowType == "usergroup" then do
        let originalGroupId := alistGet? row1 "reference_id"
        let ridStr ← refId.asString?
        let originalGroupIdStr ←
          match originalGroupId with
          | some v => if v.isNull then pure ridStr else v.asString?
          | none => pure ridStr
        let crud2 ← dr.cruds "usergroup"
        pure [{ GroupReferenceId := originalGroupIdStr, ObjectReferenceId := ridStr,
                RelationReferenceId := ridStr, Permission := crud2.defaultPermission }]
      else pure []
    else
      -- rowType names a join-table relation: no group lookup
      pure []
  let rowPermission := row1.getVal "permission"
  let permVal ←
    if !rowPermission.isNull then parsePermissionValue rowPermission
    else do
      let rid ← refId.asString?
      let pe ← dr.GetObjectPermissionByReferenceId rowType rid
      pure pe.Permission
  pure { UserId := userId, UserGroupId := userGroupId, Permission := permVal }

/-- The generated user/usergroup association table name. -/
def adminJoinTable : String := "user_account_user_account_id_has_usergroup_usergroup_id"

/-- Modelled from the spec: whether the user row `u` holds membership in the
distinguished "administrators" usergroup (a join row links `u`'s id to the id
of a usergroup named "administrators"). -/
def holdsAdministratorsGroup (dr : DbResource) (u : GoRow) : Bool :=
  (dr.tables adminJoinTable).any (fun j =>
    GoValue.sqlEq (j.getVal "user_account_id") (u.getVal "id")
    && (dr.tables "usergroup").any (fun g =>
         GoValue.sqlEq (g.getVal "name") (GoValue.vString "administrators")
         && GoValue.sqlEq (j.getVal "usergroup_id") (g.getVal "id")))

/-- Modelled from the spec: GetAdminReferenceId (not under src/) — the
reference id of a user currently holding the administrators group, or the
empty string when no user does. -/
def DbResource.GetAdminReferenceId (dr : DbResource) : String :=
  match (dr.tables "user_account").find? (holdsAdministratorsGroup dr) with
  | some u => (u.getVal "reference_id").asStringD
  | none => ""

/-- CanBecomeAdmin (part_000 lines 391-400): true exactly when
GetAdminReferenceId returns the empty string. -/
def DbResource.CanBecomeAdmin (dr : DbResource) : Bool :=
  dr.GetAdminReferenceId == ""

/-- UserGroupNameToId (part_000 lines 566-581): `select id from usergroup
where name = ?` scanned into an integer; `none` is the scan/lookup error. -/
def DbResource.UserGroupNameToId (dr : DbResource) (groupName : String) : Option Int :=
  (firstRowWhere dr "usergroup" "name" (GoValue.vString groupName)).bind
    (fun g => (g.getVal "id").asScanInt?)

/-- Map every row of table `t`. -/
def updateTableRows (dr : DbResource) (t : String) (f : GoRow → GoRow) : DbResource :=
  { dr with tables := fun x => if x == t then (dr.tables t).map f else dr.tables x }

/-- Append a row to table `t`. -/
def insertRow (dr : DbResource) (t : String) (r : GoRow) : DbResource :=
  { dr with tables := fun x => if x == t then dr.tables t ++ [r] else dr.tables x }

/-- Audit-table permission set by BecomeAdmin. -/
def AUDIT_PERMISSION : Int := GuestCreate + UserCreate + GroupCreate
/-- Audit-table default permission set by BecomeAdmin. -/
def AUDIT_DEFAULT_PERMISSION : Int := GuestRead + UserRead + GroupRead
/-- Operator-level action permission set by BecomeAdmin. -/
def ACTION_PERMISSION : Int := UserRead + UserExecute + GroupCRUD + GroupExecute + GroupRefer
/-- Sign-in action permission set by BecomeAdmin. -/
def SIGNIN_PERMISSION : Int :=
  GuestPeek + GuestExecute + UserRead + UserExecute + GroupRead + GroupExecute

/-- One iteration of BecomeAdmin's crud loop (part_000 lines 591-616): skip the
user/usergroup join table, and on every table carrying the owner column set
the owner to `userId` and the permission to the default on all rows. -/
def becomeAdminOwnerStep (userId : Int) (d : DbResource) (name : String) : DbResource :=
  if name == adminJoinTable then d
  else
    match d.cruds name with
    | none => d
    | some crud =>
      if crud.hasUserAccountColumn then
        updateTableRows d name (fun r =>
          (r.set "user_account_id" (GoValue.vInt userId)).set "permission"
            (GoValue.vInt DEFAULT_PERMISSION))
      else d

/-- BecomeAdmin (part_000 lines 585-650).  Guarded by CanBecomeAdmin; then
rewrites ownership and permissions of every crud table carrying the owner
column, inserts the administrators membership row (with a fresh reference id
`newReferenceId`, standing for uuid.NewV4), and resets world and action
permissions.  Statement errors are logged and skipped in the source; the
lookup of the administrators group id falls back to 0 when it errs. -/
def DbResource.BecomeAdmin (dr : DbResource) (userId : Int) (newReferenceId : String) :
    DbResource × Bool :=
  if !dr.CanBecomeAdmin then (dr, false)
  else
    let db1 := dr.crudNames.foldl (becomeAdminOwnerStep userId) dr
    let adminUsergroupId := (db1.UserGroupNameToId "administrators").getD 0
    let db2 := insertRow db1 adminJoinTable
      [("user_account_id", GoValue.vInt userId),
       ("usergroup_id", GoValue.vInt adminUsergroupId),
       ("permission", GoValue.vInt DEFAULT_PERMISSION),
       ("reference_id", GoValue.vString newReferenceId)]
    let db3 := updateTableRows db2 "world" (fun r =>
      match r.getVal "table_name" with
      | GoValue.vString tn =>
        if !(trailsWith tn.data "_audit".data) then
          (r.set "permission" (GoValue.vInt DEFAULT_PERMISSION)).set "default_permission"
            (GoValue.vInt DEFAULT_PERMISSION)
        else r
      | _ => r)
    let db4 := updateTableRows db3 "world" (fun r =>
      match r.getVal "table_name" with
      | GoValue.vString tn =>
        if trailsWith tn.data "_audit".data then
          (r.set "permission" (GoValue.vInt AUDIT_PERMISSION)).set "default_permission"
            (GoValue.vInt AUDIT_DEFAULT_PERMISSION)
        else r
      | _ => r)
    let db5 := updateTableRows db4 "action" (fun r =>
      r.set "permission" (GoValue.vInt ACTION_PERMISSION))
    let db6 := updateTableRows db5 "action" (fun r =>
      if GoValue.sqlEq (r.getVal "action_name") (GoValue.vString "signin") then
        r.set "permission" (GoValue.vInt SIGNIN_PERMISSION)
      else r)
    (db6, true)

/-- Fold a sequence of BecomeAdmin calls over the state, keeping the state of
each call (used to speak about "every call thereafter"). -/
def applyBecomeAdmins (dr : DbResource) (calls : List (Int × String)) : DbResource :=
  calls.foldl (fun d c => (d.BecomeAdmin c.1 c.2).1) dr

theorem dropWhileLenLe {α : Type} (p : α → Bool) (l : List α) :
    (l.dropWhile p).length ≤ l.length := by
  induction l with
  | nil => simp
  | cons a t ih =>
    rw [List.dropWhile_cons]
    split
    · exact Nat.le_succ_of_le ih
    · simp

theorem goTrimSpace_length_le (s : List Char) : (goTrimSpace s).length ≤ s.length := by
  unfold goTrimSpace
  calc ((s.dropWhile goIsSpace).reverse.dropWhile goIsSpace).reverse.length
      = ((s.dropWhile goIsSpace).reverse.dropWhile goIsSpace).length := by
        rw [List.length_reverse]
    _ ≤ (s.dropWhile goIsSpace).reverse.length := dropWhileLenLe _ _
    _ = (s.dropWhile goIsSpace).length := by rw [List.length_reverse]
    _ ≤ s.length := dropWhileLenLe _ _

/-- C10: for every string and every non-negative limit, trimToLimit returns a
string of length at most the limit whenever the input is longer than the
limit, and otherwise returns the input with surrounding whitespace removed;
in all cases the result length is at most max(limit, length of the input). -/
theorem trimToLimit_length_spec (str : List Char) (limit : Nat) :
    (str.length > limit → (trimToLimit str limit).length ≤ limit)
    ∧ (¬ str.length > limit → trimToLimit str limit = goTrimSpace str)
    ∧ (trimToLimit str limit).length ≤ max limit str.length := by
  refine ⟨?_, ?_, ?_⟩
  · intro h
    simp only [trimToLimit, if_pos h, List.length_take]
    omega
  · intro h
    simp only [trimToLimit, if_neg h]
  · by_cases h : str.length > limit
    · simp only [trimToLimit, if_pos h, List.length_take]
      omega
    · simp only [trimToLimit, if_neg h]
      have := goTrimSpace_length_le str
      omega

/-- Witness for C10 at concrete inputs. -/
theorem trimToLimit_length_spec_witness :
    (trimToLimit "abcdef".data 3).length ≤ 3
    ∧ trimToLimit "  ab  ".data 8 = goTrimSpace "  ab  ".data :=
  ⟨(trimToLimit_length_spec "abcdef".data 3).1 (by decide),
   (trimToLimit_length_spec "  ab  ".data 8).2.1 (by decide)⟩

/-- C9: when the permission query finds no row, GetObjectPermissionByWhereClause
returns the zero PermissionInstance (empty owner, no groups, zero bitmask)
rather than an error or a panic. -/
theorem GetObjectPermissionByWhereClause_no_row_zero
    (dr : DbResource) (objectType colName colValue : String)
    (h : firstRowWhere dr objectType colName (GoValue.vString colValue) = none) :
    dr.GetObjectPermissionByWhereClause objectType colName colValue =
      some { UserId := "", UserGroupId := [], Permission := 0 } := by
  unfold DbResource.GetObjectPermissionByWhereClause
  rw [h]

/-- The empty store: no tables, no cruds, every external capability errs. -/
def emptyDb : DbResource where
  tables := fun _ => []
  cruds := fun _ => none
  crudNames := []
  groupsByWhere := fun _ _ _ => []
  objectGroups := fun _ _ => []
  jsonDecodeFileList := fun _ => none
  localStoreFiles := fun _ _ _ => none
  parseTime := fun _ => none

/-- Witness for C9 on the empty store. -/
theorem GetObjectPermissionByWhereClause_no_row_zero_witness :
    emptyDb.GetObjectPermissionByWhereClause "world" "table_name" "book" =
      some { UserId := "", UserGroupId := [], Permission := 0 } :=
  GetObjectPermissionByWhereClause_no_row_zero emptyDb "world" "table_name" "book" rfl

/-- C8: for the group entity itself, group-membership resolution returns
exactly one synthetic GroupPermission whose group, object and relation
reference ids all equal the object's own reference id, carrying the usergroup
model's configured default permission. -/
theorem Usergroup_self_membership (dr : DbResource) (objectId : Int)
    (cm : CrudModel) (refId : String)
    (hc : dr.cruds "usergroup" = some cm)
    (hr : dr.GetIdToReferenceId "usergroup" objectId = some refId) :
    dr.GetObjectGroupsByObjectId "usergroup" objectId =
      some [{ GroupReferenceId := refId, ObjectReferenceId := refId,
              RelationReferenceId := refId, Permission := cm.defaultPermission }] := by
  unfold DbResource.GetObjectGroupsByObjectId
  simp [hr, hc]

/-- A store holding one usergroup row, for the C8 witness. -/
def usergroupDb : DbResource :=
  { emptyDb with
    tables := fun t =>
      if t == "usergroup" then
        [[("id", GoValue.vInt 2), ("reference_id", GoValue.vString "g2"),
          ("name", GoValue.vString "admins"), ("permission", GoValue.vInt 9)]]
      else []
    cruds := fun t =>
      if t == "usergroup" then
        some { hasUserAccountColumn := false, hasManyUsergroup := false,
               defaultPermission := 7, columnMap := [] }
      else none }

/-- Witness for C8 on a concrete usergroup row. -/
theorem Usergroup_self_membership_witness :
    usergroupDb.GetObjectGroupsByObjectId "usergroup" 2 =
      some [{ GroupReferenceId := "g2", ObjectReferenceId := "g2",
              RelationReferenceId := "g2", Permission := 7 }] :=
  Usergroup_self_membership usergroupDb 2
    { hasUserAccountColumn := false, hasManyUsergroup := false,
      defaultPermission := 7, columnMap := [] } "g2" rfl rfl

/-- C1: IsUserActionAllowed is exactly the conjunction of the Execute check on
the type's permission instance and the Execute check on the action's own
permission instance; making either check false makes the composite false. -/
theorem IsUserActionAllowed_requires_both (dr : DbResource) (u : String)
    (gs : List GroupPermission) (t a : String) (p ap : PermissionInstance)
    (hp : dr.GetObjectPermissionByWhereClause "world" "table_name" t = some p)
    (ha : dr.GetObjectPermissionByWhereClause "action" "action_name" a = some ap) :
    dr.IsUserActionAllowed u gs t a = some (p.CanExecute u gs && ap.CanExecute u gs)
    ∧ (dr.IsUserActionAllowed u gs t a = some true
        ↔ (p.CanExecute u gs = true ∧ ap.CanExecute u gs = true))
    ∧ ((p.CanExecute u gs = false ∨ ap.CanExecute u gs = false) →
        dr.IsUserActionAllowed u gs t a = some false) := by
  have hmain : dr.IsUserActionAllowed u gs t a
      = some (p.CanExecute u gs && ap.CanExecute u gs) := by
    unfold DbResource.IsUserActionAllowed
    rw [hp, ha]
    rfl
  refine ⟨hmain, ?_, ?_⟩
  · rw [hmain]
    constructor
    · intro h
      have h2 := Option.some.inj h
      exact Bool.and_eq_true_iff.mp h2
    · intro h
      rw [h.1, h.2]
      rfl
  · intro h
    rw [hmain]
    rcases h with h | h <;> rw [h] <;> simp

/-- A store with one world row and one action row, for the C1 witness. -/
def actionDb : DbResource :=
  { emptyDb with
    tables := fun t =>
      if t == "world" then
        [[("table_name", GoValue.vString "book"), ("id", GoValue.vInt 1),
          ("reference_id", GoValue.vString "w1"), ("permission", GoValue.vInt 32)]]
      else if t == "action" then
        [[("action_name", GoValue.vString "signin"), ("id", GoValue.vInt 2),
          ("reference_id", GoValue.vString "a1"), ("permission", GoValue.vInt 0)]]
      else [] }

/-- Witness for C1: the type check passes (guest Execute bit set) but the
action check fails, so the composite is false. -/
theorem IsUserActionAllowed_requires_both_witness :
    actionDb.IsUserActionAllowed "u" [] "book" "signin" = some false :=
  (IsUserActionAllowed_requires_both actionDb "u" [] "book" "signin"
      { UserId := "", UserGroupId := [], Permission := 32 }
      { UserId := "", UserGroupId := [], Permission := 0 }
      (by decide) (by decide)).2.2 (Or.inr (by decide))

theorem digitsValAux_none (ds : List Char) (acc : Nat)
    (h : ds.all Char.isDigit = false) : digitsValAux ds acc = none := by
  induction ds generalizing acc with
  | nil => simp at h
  | cons c cs ih =>
    rw [List.all_cons] at h
    rw [digitsValAux]
    by_cases hc : c.isDigit
    · rw [hc] at h
      simp only [Bool.true_and] at h
      rw [if_pos hc]
      exact ih _ h
    · rw [if_neg hc]

/-- C3 counterexample row: permission stored as an out-of-range decimal string. -/
def bigPermString : String := "99999999999999999999"

/-- A store with a crud entry for "world", used by the C3 counterexample. -/
def rangeDb : DbResource :=
  { emptyDb with
    cruds := fun t =>
      if t == "world" then
        some { hasUserAccountColumn := false, hasManyUsergroup := false,
               defaultPermission := 0, columnMap := [] }
      else none }

/-- The concrete row of the C3 counterexample. -/
def rangeRow : GoRow :=
  [("__type", GoValue.vString "world"), ("reference_id", GoValue.vString "r1"),
   ("user_account_id", GoValue.vString "u"), ("permission", GoValue.vString bigPermString)]

/-- C3 counterexample: a permission string that fails to parse (strconv range
error, error flag true) is NOT treated as zero — strconv.ParseInt returns the
clamped 2^63-1 on range errors and GetRowPermission uses that value, yielding
a fully open owner/guest mask instead of the claimed fully closed zero. -/
theorem GetRowPermission_range_string_not_zero :
    goParseInt10 bigPermString = ((2 : Int) ^ 63 - 1, true)
    ∧ parsePermissionValue (GoValue.vString bigPermString) = some ((2 : Int) ^ 63 - 1)
    ∧ ((2 : Int) ^ 63 - 1 ≠ 0)
    ∧ rangeDb.GetRowPermission "world" rangeRow
        = some { UserId := "u", UserGroupId := [], Permission := (2 : Int) ^ 63 - 1 } := by
  refine ⟨by decide, by decide, by decide, by decide⟩

/-- C3 amended: GetRowPermission's permission decode treats the three
encodings identically on values that parse — an int64 is used directly, an
integral float truncates to the same value, and a decimal string denoting v
yields v (in particular "34" equals 34) — and a string that fails
syntactically is treated as zero; a syntactically valid decimal out of int64
range is clamped to 2^63-1 / -2^63 rather than zeroed. -/
theorem GetRowPermission_permission_encodings :
    (∀ i : Int, parsePermissionValue (GoValue.vInt i) = some i)
    ∧ (∀ f : Int, parsePermissionValue (GoValue.vFloat f) = some f)
    ∧ (∀ (s : String) (v : Int), goParseInt10 s = (v, false) →
        parsePermissionValue (GoValue.vString s) = some v)
    ∧ parsePermissionValue (GoValue.vString "34") = parsePermissionValue (GoValue.vInt 34)
    ∧ (∀ s : String, decimalShape s = false →
        parsePermissionValue (GoValue.vString s) = some 0) := by
  refine ⟨fun i => rfl, fun f => rfl, ?_, by decide, ?_⟩
  · intro s v h
    simp only [parsePermissionValue, h]
  · intro s h
    simp only [parsePermissionValue]
    suffices hz : (goParseInt10 s).1 = 0 by rw [hz]
    unfold decimalShape at h
    unfold goParseInt10
    cases hd : s.data with
    | nil => rfl
    | cons c rest =>
      rw [hd] at h
      simp only at h
      by_cases hm : c == '-'
      · simp only [hm, Bool.true_or, if_pos] at h ⊢
        cases rest with
        | nil => rfl
        | cons c2 cs =>
          simp only [List.isEmpty_cons, Bool.not_false, Bool.true_and] at h
          rw [digitsVal?, digitsValAux_none _ _ h]
      · by_cases hp : c == '+'
        · simp only [hm, hp, Bool.false_or, if_pos, if_neg, Bool.false_eq_true,
            not_false_iff] at h ⊢
          cases rest with
          | nil => rfl
          | cons c2 cs =>
            simp only [List.isEmpty_cons, Bool.not_false, Bool.true_and] at h
            rw [digitsVal?, digitsValAux_none _ _ h]
        · simp only [hm, hp, Bool.false_or, if_neg, Bool.false_eq_true,
            not_false_iff] at h ⊢
          simp only [List.isEmpty_cons, Bool.not_false, Bool.true_and] at h
          rw [digitsVal?, digitsValAux_none _ _ h]

/-- Witness for C3's amended theorem: "34" parses to the same bitmask as the
int64 34, and a syntactically failing string yields zero. -/
theorem GetRowPermission_permission_encodings_witness :
    parsePermissionValue (GoValue.vString "34") = some 34
    ∧ parsePermissionValue (GoValue.vString "abc") = some 0 :=
  ⟨GetRowPermission_permission_encodings.2.2.1 "34" 34 (by decide),
   GetRowPermission_permission_encodings.2.2.2.2 "abc" (by decide)⟩

theorem eq_of_pairwise_ne {α β : Type} (f : α → β) {l : List α}
    (h : l.Pairwise (fun a b => f a ≠ f b)) {a b : α}
    (ha : a ∈ l) (hb : b ∈ l) (hf : f a = f b) : a = b := by
  induction l with
  | nil => cases ha
  | cons x t ih =>
    rcases List.pairwise_cons.mp h with ⟨hx, ht⟩
    rcases List.mem_cons.mp ha with ha1 | ha2
    · rcases List.mem_cons.mp hb with hb1 | hb2
      · rw [ha1, hb1]
      · subst ha1
        exact absurd hf (hx b hb2)
    · rcases List.mem_cons.mp hb with hb1 | hb2
      · subst hb1
        exact absurd hf.symm (hx a ha2)
      · exact ih ht ha2 hb2

theorem find?_mem_of_exists {α : Type} (p : α → Bool) (l : List α) (a : α)
    (ha : a ∈ l) (hp : p a = true) :
    ∃ b, l.find? p = some b ∧ b ∈ l ∧ p b = true := by
  cases hfind : l.find? p with
  | none => exact absurd hp (by simpa using List.find?_eq_none.mp hfind a ha)
  | some b => exact ⟨b, rfl, List.mem_of_find?_eq_some hfind, List.find?_some hfind⟩

theorem sqlEq_vInt_iff (x : GoValue) (i : Int) :
    GoValue.sqlEq x (GoValue.vInt i) = true ↔ x = GoValue.vInt i := by
  cases x <;> simp [GoValue.sqlEq]

theorem sqlEq_vString_iff (x : GoValue) (s : String) :
    GoValue.sqlEq x (GoValue.vString s) = true ↔ x = GoValue.vString s := by
  cases x <;> simp [GoValue.sqlEq]

/-- C5: in a table whose id column values are pairwise distinct and whose
reference_id column values are pairwise distinct, the two translations are
mutually inverse on every existing row: translating an internal id gives the
row's reference id, and translating that reference id back gives the id. -/
theorem ReferenceId_roundtrip (dr : DbResource) (T : String) (r0 : GoRow)
    (i : Int) (rid : String)
    (hmem : r0 ∈ dr.tables T)
    (hid : r0.getVal "id" = GoValue.vInt i)
    (href : r0.getVal "reference_id" = GoValue.vString rid)
    (hidU : (dr.tables T).Pairwise (fun a b => a.getVal "id" ≠ b.getVal "id"))
    (hrefU : (dr.tables T).Pairwise
      (fun a b => a.getVal "reference_id" ≠ b.getVal "reference_id")) :
    dr.GetIdToReferenceId T i = some rid ∧ dr.GetReferenceIdToId T rid = some i := by
  constructor
  · obtain ⟨b, hb, hbmem, hbp⟩ := find?_mem_of_exists
      (fun r => GoValue.sqlEq (r.getVal "id") (GoValue.vInt i)) (dr.tables T) r0 hmem
      (by show GoValue.sqlEq (r0.getVal "id") (GoValue.vInt i) = true
          rw [hid]; simp [GoValue.sqlEq])
    have hbeq : b = r0 := eq_of_pairwise_ne (fun r => GoRow.getVal r "id") hidU hbmem hmem
      (by show b.getVal "id" = r0.getVal "id"
          rw [(sqlEq_vInt_iff _ _).mp hbp, hid])
    have hfrw : firstRowWhere dr T "id" (GoValue.vInt i) = some r0 := by
      unfold firstRowWhere
      rw [hb, hbeq]
    unfold DbResource.GetIdToReferenceId
    rw [hfrw]
    simp [Option.bind, href, GoValue.asScanString?]
  · obtain ⟨b, hb, hbmem, hbp⟩ := find?_mem_of_exists
      (fun r => GoValue.sqlEq (r.getVal "reference_id") (GoValue.vString rid))
      (dr.tables T) r0 hmem
      (by show GoValue.sqlEq (r0.getVal "reference_id") (GoValue.vString rid) = true
          rw [href]; simp [GoValue.sqlEq])
    have hbeq : b = r0 := eq_of_pairwise_ne (fun r => GoRow.getVal r "reference_id")
      hrefU hbmem hmem
      (by show b.getVal "reference_id" = r0.getVal "reference_id"
          rw [(sqlEq_vString_iff _ _).mp hbp, href])
    have hfrw : firstRowWhere dr T "reference_id" (GoValue.vString rid) = some r0 := by
      unfold firstRowWhere
      rw [hb, hbeq]
    unfold DbResource.GetReferenceIdToId
    rw [hfrw]
    simp [Option.bind, hid, GoValue.asScanInt?]

/-- A one-row store for the C5 witness. -/
def roundDb : DbResource :=
  { emptyDb with
    tables := fun t =>
      if t == "book" then [[("id", GoValue.vInt 3), ("reference_id", GoValue.vString "r3")]]
      else [] }

/-- Witness for C5 on a concrete table. -/
theorem ReferenceId_roundtrip_witness :
    roundDb.GetIdToReferenceId "book" 3 = some "r3"
    ∧ roundDb.GetReferenceIdToId "book" "r3" = some 3 :=
  ReferenceId_roundtrip roundDb "book"
    [("id", GoValue.vInt 3), ("reference_id", GoValue.vString "r3")] 3 "r3"
    (by decide) (by decide) (by decide) (by decide) (by decide)

theorem getObjectPermissionByReferenceId_miss (dr : DbResource) (t rid : String)
    (h : firstRowWhere dr t "reference_id" (GoValue.vString rid) = none) :
    dr.GetObjectPermissionByReferenceId t rid =
      some { UserId := "", UserGroupId := [], Permission := 0 } := by
  unfold DbResource.GetObjectPermissionByReferenceId
  rw [h]

theorem getReferenceIdToObject_empty (dr : DbResource) (selfName t rid : String)
    (cm : CrudModel) (hc : dr.cruds t = some cm)
    (h : rowsWhere dr t "reference_id" (GoValue.vString rid) = []) :
    dr.GetReferenceIdToObject selfName t rid = some none := by
  unfold DbResource.GetReferenceIdToObject
  rw [hc, h]
  rfl

/-- The store of the C4 counterexample: a known non-usergroup crud, nothing else. -/
def c4Db : DbResource :=
  { emptyDb with
    cruds := fun t =>
      if t == "world" then
        some { hasUserAccountColumn := false, hasManyUsergroup := false,
               defaultPermission := 0, columnMap := [] }
      else none }

/-- The C4 counterexample row: reference_id key absent, integer id fallback,
permission column absent. -/
def c4Row : GoRow :=
  [("__type", GoValue.vString "world"), ("id", GoValue.vInt 5),
   ("user_account_id", GoValue.vString "u1")]

/-- C4 counterexample: with the reference_id key absent, GetRowPermission
falls back to the row's integer id and the permission-fallback path executes
the string type assertion `refId.(string)` on that int64, which panics —
the function does not return a restrictive instance on this input. -/
theorem GetRowPermission_missing_reference_id_panics :
    c4Db.GetRowPermission "world" c4Row = none := by decide

/-- C4 amended: GetRowPermission never panics and degrades to the fully closed
instance on missing optional fields — owner column absent (or null) and
permission column absent (or null), with the canonical row also missing —
provided the row's declared type is a known non-join, non-usergroup type and
the reference-id value it falls back on is a string; when the reference_id key
is absent and the fallback id is not a string, the paths that consult the
reference id panic (see the counterexample). -/
theorem GetRowPermission_degrades_without_panic
    (dr : DbResource) (selfName : String) (row : GoRow) (t rid : String) (cm : CrudModel)
    (h1 : row.getVal "__type" = GoValue.vString t)
    (h2 : (t == "usergroup") = false)
    (h3 : dr.cruds t = some cm)
    (h4 : refIdOf row = GoValue.vString rid)
    (h5 : row.getVal "permission" = GoValue.vNull)
    (h6 : ∀ r ∈ dr.tables t,
      GoValue.sqlEq (r.getVal "reference_id") (GoValue.vString rid) = false)
    (h7 : dr.groupsByWhere t "reference_id" (GoValue.vString rid) = []) :
    ∃ p, dr.GetRowPermission selfName row = some p
      ∧ p.UserGroupId = [] ∧ p.Permission = 0
      ∧ (row.getVal "user_account_id" = GoValue.vNull → p.UserId = "") := by
  have hmissFRW : firstRowWhere dr t "reference_id" (GoValue.vString rid) = none := by
    unfold firstRowWhere
    refine List.find?_eq_none.mpr (fun x hx => ?_)
    rw [h6 x hx]
    simp
  have hfilter : rowsWhere dr t "reference_id" (GoValue.vString rid) = [] := by
    unfold rowsWhere
    refine List.filter_eq_nil_iff.mpr (fun x hx => ?_)
    rw [h6 x hx]
    simp
  have hrefetch := getReferenceIdToObject_empty dr selfName t rid cm h3 hfilter
  have hperm0 := getObjectPermissionByReferenceId_miss dr t rid hmissFRW
  have hne : t ≠ "usergroup" := by simpa using h2
  cases huac : (row.getVal "user_account_id").isNull with
  | false =>
    refine ⟨{ UserId := (row.getVal "user_account_id").asStringD, UserGroupId := [],
              Permission := 0 }, ?_, rfl, rfl, ?_⟩
    · cases hloc : hasSub t.data "_has_".data with
      | false =>
        cases hmany : cm.hasManyUsergroup with
        | false =>
          simp only [DbResource.GetRowPermission, h1, h2, h3, h4, h5, h7, huac, hloc, hmany,
            hperm0, hne, GoValue.asString?, bne]
          simp [hperm0, h3, h5, h7, hne, huac, hloc, hmany, GoValue.isNull]
        | true =>
          simp only [DbResource.GetRowPermission, h1, h2, h3, h4, h5, h7, huac, hloc, hmany,
            hperm0, hne, GoValue.asString?, bne]
          simp [hperm0, h3, h5, h7, hne, huac, hloc, hmany, GoValue.isNull]
      | true =>
        simp only [DbResource.GetRowPermission, h1, h2, h3, h4, h5, h7, huac, hloc,
          hperm0, hne, GoValue.asString?, bne]
        simp [hperm0, h3, h5, h7, hne, huac, hloc, GoValue.isNull]
    · intro hv
      rw [hv] at huac
      simp [GoValue.isNull] at huac
  | true =>
    refine ⟨{ UserId := "", UserGroupId := [], Permission := 0 }, ?_, rfl, rfl, fun _ => rfl⟩
    cases hloc : hasSub t.data "_has_".data with
    | false =>
      cases hmany : cm.hasManyUsergroup with
      | false =>
        simp only [DbResource.GetRowPermission, h1, h2, h3, h4, h5, h7, huac, hloc, hmany,
          hrefetch, hperm0, hne, GoValue.asString?, bne]
        simp [hperm0, hrefetch, h3, h5, h7, hne, huac, hloc, hmany, GoValue.isNull,
          GoRow.getVal, alistGet?]
      | true =>
        simp only [DbResource.GetRowPermission, h1, h2, h3, h4, h5, h7, huac, hloc, hmany,
          hrefetch, hperm0, hne, GoValue.asString?, bne]
        simp [hperm0, hrefetch, h3, h5, h7, hne, huac, hloc, hmany, GoValue.isNull,
          GoRow.getVal, alistGet?]
    | true =>
      simp only [DbResource.GetRowPermission, h1, h2, h3, h4, h5, h7, huac, hloc,
        hrefetch, hperm0, hne, GoValue.asString?, bne]
      simp [hperm0, hrefetch, h3, h5, h7, hne, huac, hloc, GoValue.isNull,
        GoRow.getVal, alistGet?]

/-- The store of the C4 amended-theorem witness. -/
def c4WitDb : DbResource :=
  { emptyDb with
    cruds := fun t =>
      if t == "world" then
        some { hasUserAccountColumn := false, hasManyUsergroup := true,
               defaultPermission := 0, columnMap := [] }
      else none }

/-- Witness for C4's amended theorem: both optional columns absent, string
reference id present — the fully closed instance is returned without panic. -/
theorem GetRowPermission_degrades_without_panic_witness :
    c4WitDb.GetRowPermission "world"
      [("__type", GoValue.vString "world"), ("reference_id", GoValue.vString "rW")]
      = some { UserId := "", UserGroupId := [], Permission := 0 } := by
  obtain ⟨p, hp, hg, hpe, hu⟩ := GetRowPermission_degrades_without_panic c4WitDb "world"
    [("__type", GoValue.vString "world"), ("reference_id", GoValue.vString "rW")]
    "world" "rW"
    { hasUserAccountColumn := false, hasManyUsergroup := true,
      defaultPermission := 0, columnMap := [] }
    rfl rfl rfl rfl rfl (by decide) rfl
  have hps : p = { UserId := "", UserGroupId := [], Permission := 0 } := by
    have hu2 := hu rfl
    cases p
    simp only at hg hpe hu2
    rw [hg, hpe, hu2]
  rw [← hps]
  exact hp

theorem processEntry_skip (dr : DbResource) (selfName : String)
    (fetch : String → Int → Option (Option GoRow))
    (cmap : List (String × ColumnInfo)) (incMap : Option (List String))
    (acc : GoRow × List GoRow) (k : String) (v : GoValue)
    (h : lookupCol cmap k = none) :
    processEntry dr selfName fetch cmap incMap acc k v = some acc := by
  unfold processEntry
  rw [h]

theorem processEntries_id (dr : DbResource) (selfName : String)
    (fetch : String → Int → Option (Option GoRow))
    (cmap : List (String × ColumnInfo)) (incMap : Option (List String))
    (entries : List (String × GoValue))
    (h : ∀ p ∈ entries, ∀ acc : GoRow × List GoRow,
      processEntry dr selfName fetch cmap incMap acc p.1 p.2 = some acc) :
    ∀ acc, processEntries dr selfName fetch cmap incMap entries acc = some acc := by
  induction entries with
  | nil => intro acc; rfl
  | cons p rest ih =>
    intro acc
    rw [processEntries, h p (List.mem_cons_self p rest) acc]
    exact ih (fun q hq a => h q (List.mem_cons_of_mem p hq) a) acc

theorem mem_alistSet {β : Type} (l : List (String × β)) (k : String) (v : β)
    (p : String × β) (hp : p ∈ alistSet l k v) : p = (k, v) ∨ p ∈ l := by
  unfold alistSet at hp
  split at hp
  · rcases List.mem_map.mp hp with ⟨q, hq, hqe⟩
    by_cases hk : q.1 == k
    · left
      rw [if_pos hk] at hqe
      rw [← hqe]
      have : q.1 = k := by simpa using hk
      rw [this]
    · right
      rw [if_neg hk] at hqe
      rw [← hqe]
      exact hq
  · rcases List.mem_append.mp hp with hq | hq
    · right; exact hq
    · left; simpa using hq

/-- C7: for a foreign-key column of data source "self" whose target row is
missing, relation expansion leaves the column value unmodified and adds no
object for it to the include list, and the row itself is still returned; when
the reference-id translation succeeds, the column value is overwritten with
the translated reference id. -/
theorem SelfForeignKey_missing_target (dr : DbResource) (selfName : String)
    (fetch : String → Int → Option (Option GoRow))
    (cmap : List (String × ColumnInfo)) (incMap : Option (List String))
    (key : String) (info : ColumnInfo) (i : Int)
    (hcol : lookupCol cmap key = some info)
    (hfk : info.IsForeignKey = true)
    (hsrc : info.ForeignKeyData.DataSource = "self") :
    (∀ (row : GoRow) (inc0 : List GoRow),
      dr.GetIdToReferenceId info.ForeignKeyData.Namespace i = none →
      processEntry dr selfName fetch cmap incMap (row, inc0) key (GoValue.vInt i)
        = some (row, inc0))
    ∧ (∀ (row : GoRow) (inc0 : List GoRow) (rid : String),
      dr.GetIdToReferenceId info.ForeignKeyData.Namespace i = some rid →
      includeHas incMap info.ForeignKeyData.Namespace = false →
      processEntry dr selfName fetch cmap incMap (row, inc0) key (GoValue.vInt i)
        = some (row.set key (GoValue.vString rid), inc0))
    ∧ (∀ r : GoRow,
      dr.GetIdToReferenceId info.ForeignKeyData.Namespace i = none →
      lookupCol cmap "__type" = none →
      (∀ p ∈ r, p.1 = key ∨ lookupCol cmap p.1 = none) →
      (∀ p ∈ r, p.1 = key → p.2 = GoValue.vInt i) →
      dr.ResultToArrayOfMap selfName cmap incMap [r]
        = some ([r.set "__type" (GoValue.vString selfName)], [[]])) := by
  have hmissEntry : ∀ (fetchx : String → Int → Option (Option GoRow))
      (row : GoRow) (inc0 : List GoRow),
      dr.GetIdToReferenceId info.ForeignKeyData.Namespace i = none →
      processEntry dr selfName fetchx cmap incMap (row, inc0) key (GoValue.vInt i)
        = some (row, inc0) := by
    intro fetchx row inc0 hmiss
    unfold processEntry
    rw [hcol]
    simp only [hfk, hsrc, hmiss, GoValue.isNull, GoValue.beqPrim, Bool.not_true,
      Bool.false_or, Bool.or_false, ite_self]
    simp
  refine ⟨hmissEntry fetch, ?_, ?_⟩
  · intro row inc0 rid hhit hinc
    unfold processEntry
    rw [hcol]
    simp only [hfk, hsrc, hhit, hinc, GoValue.isNull, GoValue.beqPrim, ite_self]
    simp [hinc]
  · intro r hmiss htype hothers hkeyval
    unfold DbResource.ResultToArrayOfMap resultToArrayOfMapCore RowsToMap
    simp only [List.map_cons, List.map_nil, List.mapM_cons, List.mapM_nil]
    have hrows : processEntries dr selfName (dr.GetIdToObject selfName) cmap incMap
        (r.set "__type" (GoValue.vString selfName))
        (r.set "__type" (GoValue.vString selfName), [])
        = some (r.set "__type" (GoValue.vString selfName), []) := by
      refine processEntries_id dr selfName _ cmap incMap _ (fun p hp acc => ?_) _
      rcases mem_alistSet r "__type" (GoValue.vString selfName) p hp with hpt | hpr
      · rw [hpt]
        exact processEntry_skip dr selfName _ cmap incMap acc "__type" _ htype
      · rcases hothers p hpr with hk | hn
        · have hv := hkeyval p hpr hk
          cases acc with
          | mk a1 a2 =>
            rw [hk, hv]
            exact hmissEntry _ a1 a2 hmiss
        · exact processEntry_skip dr selfName _ cmap incMap acc p.1 p.2 hn
    rw [hrows]
    rfl

/-- Column map of the C7 witness: a single self foreign key to "author". -/
def selfCmap : List (String × ColumnInfo) :=
  [("author_id",
    { ColumnName := "author_id", ColumnType := "alias", IsForeignKey := true,
      ForeignKeyData :=
        { DataSource := "self", Namespace := "author", KeyName := "id" } })]

/-- Witness for C7: the "author" table is empty, so translating internal id 7
fails; the row comes back with the column untouched and an empty include list. -/
theorem SelfForeignKey_missing_target_witness :
    processEntry emptyDb "post" (fun _ _ => none) selfCmap (some ["*"])
        ([("author_id", GoValue.vInt 7)], []) "author_id" (GoValue.vInt 7)
      = some ([("author_id", GoValue.vInt 7)], [])
    ∧ emptyDb.ResultToArrayOfMap "post" selfCmap (some ["*"])
        [[("author_id", GoValue.vInt 7)]]
      = some ([[("author_id", GoValue.vInt 7), ("__type", GoValue.vString "post")]], [[]]) := by
  have h := SelfForeignKey_missing_target emptyDb "post" (fun _ _ => none) selfCmap
    (some ["*"]) "author_id"
    { ColumnName := "author_id", ColumnType := "alias", IsForeignKey := true,
      ForeignKeyData := { DataSource := "self", Namespace := "author", KeyName := "id" } }
    7 rfl rfl rfl
  exact ⟨h.1 _ _ rfl, h.2.2 _ rfl rfl (by decide) (by decide)⟩

/-- The store of the C2 failing input: encoding/json decodes "[{}]" into a
single empty descriptor map. -/
def cloudDb : DbResource :=
  { emptyDb with
    jsonDecodeFileList := fun s => if s == "[{}]" then some [[]] else none }

/-- Column map of the C2 failing input: one cloud_store foreign-key column. -/
def cloudCmap : List (String × ColumnInfo) :=
  [("doc",
    { ColumnName := "doc", ColumnType := "file.pdf", IsForeignKey := true,
      ForeignKeyData :=
        { DataSource := "cloud_store", Namespace := "docstore", KeyName := "doc" } })]

/-- C2: a batch of one row whose cloud_store column holds the valid JSON
"[{}]" — a descriptor list whose descriptor has no "name" key — makes
ResultToArrayOfMap panic on `file["name"].(string)` and return no rows at all,
so the output row count (zero, by panic) differs from the input row count
(one): a column-level resolution failure here fails the whole batch. -/
theorem ResultToArrayOfMap_drops_batch_on_missing_name :
    ([[("doc", GoValue.vString "[{}]")]] : List GoRow).length = 1
    ∧ cloudDb.ResultToArrayOfMap "mail" cloudCmap none
        [[("doc", GoValue.vString "[{}]")]] = none := by
  exact ⟨rfl, by decide⟩

theorem alistGet?_set_ne {β : Type} (l : List (String × β)) (k k' : String) (v : β)
    (h : k ≠ k') : alistGet? (alistSet l k' v) k = alistGet? l k := by
  unfold alistSet alistGet?
  split
  · rw [List.find?_map]
    have hcomp : ((fun p : String × β => p.1 == k)
        ∘ (fun p : String × β => if p.1 == k' then (p.1, v) else p))
        = (fun p : String × β => p.1 == k) := by
      funext p
      by_cases hp : p.1 = k' <;> simp [hp]
    rw [hcomp]
    cases hf : l.find? (fun p => p.1 == k) with
    | none => rfl
    | some q =>
      have hq1 : q.1 = k := by simpa using List.find?_some hf
      have hfq : (if q.1 == k' then (q.1, v) else q) = q := by
        rw [if_neg]
        rw [hq1]
        simp
        exact fun hc => h hc
      simp only [Option.map_some']
      rw [hfq]
  · rw [List.find?_append]
    cases hf : l.find? (fun p => p.1 == k) with
    | none =>
      simp only [Option.none_or]
      have : ((k', v).1 == k) = false := by
        simp
        exact fun hc => h hc.symm
      simp [List.find?, this]
    | some q => rfl

theorem getVal_set_ne (r : GoRow) (k k' : String) (v : GoValue) (h : k ≠ k') :
    (r.set k' v).getVal k = r.getVal k := by
  unfold GoRow.getVal GoRow.set
  rw [alistGet?_set_ne r k k' v h]

theorem tables_updateTableRows_ne (d : DbResource) (t t' : String) (f : GoRow → GoRow)
    (h : (t' == t) = false) : (updateTableRows d t f).tables t' = d.tables t' := by
  unfold updateTableRows
  simp [h]

theorem tables_updateTableRows_self (d : DbResource) (t : String) (f : GoRow → GoRow) :
    (updateTableRows d t f).tables t = (d.tables t).map f := by
  unfold updateTableRows
  simp

theorem tables_insertRow_ne (d : DbResource) (t t' : String) (r : GoRow)
    (h : (t' == t) = false) : (insertRow d t r).tables t' = d.tables t' := by
  unfold insertRow
  simp [h]

theorem tables_insertRow_self (d : DbResource) (t : String) (r : GoRow) :
    (insertRow d t r).tables t = d.tables t ++ [r] := by
  unfold insertRow
  simp

theorem cruds_updateTableRows (d : DbResource) (t : String) (f : GoRow → GoRow) :
    (updateTableRows d t f).cruds = d.cruds := rfl

theorem foldOwner_tables (userId : Int) (names : List String) (d0 : DbResource)
    (t : String) :
    ∃ f : GoRow → GoRow,
      (names.foldl (becomeAdminOwnerStep userId) d0).tables t = (d0.tables t).map f
      ∧ ∀ (r : GoRow) (k : String), k ≠ "user_account_id" → k ≠ "permission" →
          (f r).getVal k = r.getVal k := by
  induction names generalizing d0 with
  | nil =>
    refine ⟨id, ?_, fun r k _ _ => rfl⟩
    simp
  | cons n ns ih =>
    rw [List.foldl_cons]
    have hstep : becomeAdminOwnerStep userId d0 n = d0
        ∨ becomeAdminOwnerStep userId d0 n
            = updateTableRows d0 n (fun r =>
                (r.set "user_account_id" (GoValue.vInt userId)).set "permission"
                  (GoValue.vInt DEFAULT_PERMISSION)) := by
      unfold becomeAdminOwnerStep
      by_cases h1 : n == adminJoinTable
      · left; rw [if_pos h1]
      · rw [if_neg h1]
        cases d0.cruds n with
        | none => left; rfl
        | some crud =>
          by_cases h2 : crud.hasUserAccountColumn
          · right; simp [h2]
          · left; simp [h2]
    rcases hstep with hs | hs
    · rw [hs]
      exact ih d0
    · rw [hs]
      obtain ⟨f', hf', hp'⟩ := ih (updateTableRows d0 n (fun r =>
        (r.set "user_account_id" (GoValue.vInt userId)).set "permission"
          (GoValue.vInt DEFAULT_PERMISSION)))
      by_cases ht : (t == n)
      · have htn : t = n := by simpa using ht
        subst htn
        refine ⟨f' ∘ (fun r =>
          (r.set "user_account_id" (GoValue.vInt userId)).set "permission"
            (GoValue.vInt DEFAULT_PERMISSION)), ?_, ?_⟩
        · rw [hf', tables_updateTableRows_self, List.map_map]
        · intro r k hk1 hk2
          have e1 := hp' ((r.set "user_account_id" (GoValue.vInt userId)).set "permission"
            (GoValue.vInt DEFAULT_PERMISSION)) k hk1 hk2
          rw [Function.comp_apply, e1, getVal_set_ne _ _ _ _ hk2,
            getVal_set_ne _ _ _ _ hk1]
      · refine ⟨f', ?_, hp'⟩
        rw [hf', tables_updateTableRows_ne d0 n t _ (by simpa using ht)]

theorem becomeAdmin_guard (d : DbResource) (u : Int) (r : String)
    (h : d.CanBecomeAdmin = false) : d.BecomeAdmin u r = (d, false) := by
  unfold DbResource.BecomeAdmin
  rw [h]
  rfl

theorem applyBecomeAdmins_fixed (d : DbResource) (h : d.CanBecomeAdmin = false)
    (calls : List (Int × String)) : applyBecomeAdmins d calls = d := by
  induction calls with
  | nil => rfl
  | cons c cs ih =>
    unfold applyBecomeAdmins at ih ⊢
    rw [List.foldl_cons, becomeAdmin_guard d c.1 c.2 h]
    exact ih

theorem GetAdminReferenceId_congr (d1 d2 : DbResource)
    (hua : d2.tables "user_account" = d1.tables "user_account")
    (hj : d2.tables adminJoinTable = d1.tables adminJoinTable)
    (hg : d2.tables "usergroup" = d1.tables "usergroup") :
    d2.GetAdminReferenceId = d1.GetAdminReferenceId := by
  unfold DbResource.GetAdminReferenceId holdsAdministratorsGroup
  rw [hua, hj, hg]

theorem canBecomeAdmin_update_world (d : DbResource) (f : GoRow → GoRow) :
    (updateTableRows d "world" f).CanBecomeAdmin = d.CanBecomeAdmin := by
  unfold DbResource.CanBecomeAdmin
  rw [GetAdminReferenceId_congr d (updateTableRows d "world" f)
    (tables_updateTableRows_ne d "world" _ f (by decide))
    (tables_updateTableRows_ne d "world" _ f (by decide))
    (tables_updateTableRows_ne d "world" _ f (by decide))]

theorem canBecomeAdmin_update_action (d : DbResource) (f : GoRow → GoRow) :
    (updateTableRows d "action" f).CanBecomeAdmin = d.CanBecomeAdmin := by
  unfold DbResource.CanBecomeAdmin
  rw [GetAdminReferenceId_congr d (updateTableRows d "action" f)
    (tables_updateTableRows_ne d "action" _ f (by decide))
    (tables_updateTableRows_ne d "action" _ f (by decide))
    (tables_updateTableRows_ne d "action" _ f (by decide))]

theorem canBecomeAdmin_after (dr : DbResource) (userId gid : Int) (newRef : String)
    (g u0 : GoRow)
    (hwf : ∀ u ∈ dr.tables "user_account",
      ∃ s, u.getVal "reference_id" = GoValue.vString s ∧ s ≠ "")
    (hgrp : firstRowWhere dr "usergroup" "name" (GoValue.vString "administrators") = some g)
    (hgid : g.getVal "id" = GoValue.vInt gid)
    (huser : u0 ∈ dr.tables "user_account")
    (hu0 : u0.getVal "id" = GoValue.vInt userId)
    (hcan : dr.CanBecomeAdmin = true) :
    (dr.BecomeAdmin userId newRef).1.CanBecomeAdmin = false := by
  obtain ⟨fua, hfua, hpua⟩ := foldOwner_tables userId dr.crudNames dr "user_account"
  obtain ⟨fug, hfug, hpug⟩ := foldOwner_tables userId dr.crudNames dr "usergroup"
  unfold DbResource.BecomeAdmin
  rw [hcan]
  simp only [Bool.not_true, Bool.false_eq_true, if_false, canBecomeAdmin_update_action,
    canBecomeAdmin_update_world]
  set db1 := dr.crudNames.foldl (becomeAdminOwnerStep userId) dr with hdb1
  have hpredug : ((fun r : GoRow =>
      GoValue.sqlEq (r.getVal "name") (GoValue.vString "administrators")) ∘ fug)
      = (fun r : GoRow =>
        GoValue.sqlEq (r.getVal "name") (GoValue.vString "administrators")) := by
    funext r
    simp only [Function.comp_apply, hpug r "name" (by decide) (by decide)]
  have hfrw1 : firstRowWhere db1 "usergroup" "name" (GoValue.vString "administrators")
      = some (fug g) := by
    unfold firstRowWhere at hgrp ⊢
    rw [hfug, List.find?_map, hpredug, hgrp]
    rfl
  have hgid2 : (fug g).getVal "id" = GoValue.vInt gid := by
    rw [hpug g "id" (by decide) (by decide), hgid]
  have hadminid : (db1.UserGroupNameToId "administrators").getD 0 = gid := by
    unfold DbResource.UserGroupNameToId
    rw [hfrw1]
    simp [Option.bind, hgid2, GoValue.asScanInt?]
  rw [hadminid]
  set j0 : GoRow :=
    [("user_account_id", GoValue.vInt userId), ("usergroup_id", GoValue.vInt gid),
     ("permission", GoValue.vInt DEFAULT_PERMISSION),
     ("reference_id", GoValue.vString newRef)] with hj0
  set db2 := insertRow db1 adminJoinTable j0 with hdb2
  have hgname : g.getVal "name" = GoValue.vString "administrators" := by
    have := List.find?_some hgrp
    exact (sqlEq_vString_iff _ _).mp this
  have hw : holdsAdministratorsGroup db2 (fua u0) = true := by
    unfold holdsAdministratorsGroup
    rw [hdb2, tables_insertRow_self, tables_insertRow_ne _ _ _ _ (by decide), hfug]
    apply List.any_eq_true.mpr
    refine ⟨j0, List.mem_append_right _ (List.mem_singleton.mpr rfl), ?_⟩
    apply Bool.and_eq_true_iff.mpr
    constructor
    · rw [hpua u0 "id" (by decide) (by decide), hu0, hj0]
      simp [GoRow.getVal, alistGet?, GoValue.sqlEq]
    · apply List.any_eq_true.mpr
      refine ⟨fug g, List.mem_map_of_mem fug (List.mem_of_find?_eq_some hgrp), ?_⟩
      apply Bool.and_eq_true_iff.mpr
      constructor
      · rw [hpug g "name" (by decide) (by decide), hgname]
        simp [GoValue.sqlEq]
      · rw [hgid2, hj0]
        simp [GoRow.getVal, alistGet?, GoValue.sqlEq]
  have huamem : fua u0 ∈ db2.tables "user_account" := by
    rw [hdb2, tables_insertRow_ne _ _ _ _ (by decide), hfua]
    exact List.mem_map_of_mem fua huser
  obtain ⟨w, hwfind, hwmem, hwp⟩ := find?_mem_of_exists (holdsAdministratorsGroup db2)
    (db2.tables "user_account") (fua u0) huamem hw
  have hwmem2 : w ∈ (dr.tables "user_account").map fua := by
    rw [← hfua]
    rw [hdb2, tables_insertRow_ne _ _ _ _ (by decide)] at hwmem
    exact hwmem
  obtain ⟨w0, hw0mem, hw0e⟩ := List.mem_map.mp hwmem2
  obtain ⟨s, hs, hsne⟩ := hwf w0 hw0mem
  have hsref : w.getVal "reference_id" = GoValue.vString s := by
    rw [← hw0e, hpua w0 "reference_id" (by decide) (by decide), hs]
  have hadm : db2.GetAdminReferenceId = s := by
    unfold DbResource.GetAdminReferenceId
    rw [hwfind]
    show (w.getVal "reference_id").asStringD = s
    rw [hsref]
    rfl
  unfold DbResource.CanBecomeAdmin
  rw [hadm]
  exact beq_eq_false_iff_ne.mpr hsne

/-- C6: for a dataset holding an administrators usergroup and the promoted
user (with users carrying nonempty string reference ids), CanBecomeAdmin is
true exactly until the first successful BecomeAdmin: while it is false,
BecomeAdmin returns false and performs no promotion (the state is unchanged);
from a state where it is true, BecomeAdmin succeeds, CanBecomeAdmin is false
afterwards, and it stays false with every later BecomeAdmin call returning
false and leaving the state untouched. -/
theorem BecomeAdmin_at_most_once (dr : DbResource) (userId gid : Int)
    (newRef : String) (g u0 : GoRow)
    (hwf : ∀ u ∈ dr.tables "user_account",
      ∃ s, u.getVal "reference_id" = GoValue.vString s ∧ s ≠ "")
    (hgrp : firstRowWhere dr "usergroup" "name" (GoValue.vString "administrators") = some g)
    (hgid : g.getVal "id" = GoValue.vInt gid)
    (huser : u0 ∈ dr.tables "user_account")
    (hu0 : u0.getVal "id" = GoValue.vInt userId) :
    (∀ (d : DbResource) (u2 : Int) (r2 : String),
      d.CanBecomeAdmin = false → d.BecomeAdmin u2 r2 = (d, false))
    ∧ (dr.CanBecomeAdmin = true →
        (dr.BecomeAdmin userId newRef).2 = true
        ∧ (dr.BecomeAdmin userId newRef).1.CanBecomeAdmin = false
        ∧ ∀ (calls : List (Int × String)) (u2 : Int) (r2 : String),
            applyBecomeAdmins (dr.BecomeAdmin userId newRef).1 calls
              = (dr.BecomeAdmin userId newRef).1
            ∧ ((applyBecomeAdmins (dr.BecomeAdmin userId newRef).1 calls).BecomeAdmin
                u2 r2).2 = false) := by
  refine ⟨becomeAdmin_guard, ?_⟩
  intro hcan
  have hafter := canBecomeAdmin_after dr userId gid newRef g u0 hwf hgrp hgid huser hu0 hcan
  refine ⟨?_, hafter, ?_⟩
  · simp [DbResource.BecomeAdmin, hcan]
  · intro calls u2 r2
    have hfix := applyBecomeAdmins_fixed _ hafter calls
    refine ⟨hfix, ?_⟩
    rw [hfix, becomeAdmin_guard _ _ _ hafter]

/-- A minimal dataset with an administrators group and one user, for the C6
witness. -/
def adminDb : DbResource :=
  { emptyDb with
    crudNames := ["user_account", "usergroup"]
    cruds := fun t =>
      if t == "user_account" || t == "usergroup" then
        some { hasUserAccountColumn := false, hasManyUsergroup := true,
               defaultPermission := 0, columnMap := [] }
      else none
    tables := fun t =>
      if t == "usergroup" then
        [[("id", GoValue.vInt 1), ("name", GoValue.vString "administrators"),
          ("reference_id", GoValue.vString "gA")]]
      else if t == "user_account" then
        [[("id", GoValue.vInt 7), ("reference_id", GoValue.vString "u7")]]
      else [] }

/-- Witness for C6 on the minimal dataset: promotion succeeds once, then
CanBecomeAdmin is false and a second BecomeAdmin returns false. -/
theorem BecomeAdmin_at_most_once_witness :
    adminDb.CanBecomeAdmin = true
    ∧ (adminDb.BecomeAdmin 7 "ref-new").2 = true
    ∧ (adminDb.BecomeAdmin 7 "ref-new").1.CanBecomeAdmin = false
    ∧ ((adminDb.BecomeAdmin 7 "ref-new").1.BecomeAdmin 8 "other").2 = false := by
  have hwfw : ∀ u ∈ adminDb.tables "user_account",
      ∃ s, u.getVal "reference_id" = GoValue.vString s ∧ s ≠ "" := by
    intro u hu
    have he : u = [("id", GoValue.vInt 7), ("reference_id", GoValue.vString "u7")] := by
      simpa [adminDb, emptyDb] using hu
    rw [he]
    exact ⟨"u7", rfl, by decide⟩
  have h := BecomeAdmin_at_most_once adminDb 7 1 "ref-new"
    [("id", GoValue.vInt 1), ("name", GoValue.vString "administrators"),
     ("reference_id", GoValue.vString "gA")]
    [("id", GoValue.vInt 7), ("reference_id", GoValue.vString "u7")]
    hwfw (by decide) (by decide) (by decide) (by decide)
  have h2 := h.2 (by decide)
  exact ⟨by decide, h2.1, h2.2.1, (h2.2.2 [] 8 "other").2⟩
